import Mathlib

/-!
Verification development for the DJI video-file repair program (`djifix.c`,
version 2016-04-19).  The program is a sequential byte-stream processor:
it classifies the damage pattern of a corrupted MP4/H.264 file and then
runs one of two repair algorithms.  We embed the program shallowly: the
input file is a list of natural numbers (its bytes), the C `FILE*` cursor
and end-of-file indicator become an explicit `ByteSrc` record, and each C
function becomes a Lean function on that state.  Machine integers
(`unsigned`) are modelled as `Nat` with explicit `% 2^32` / `% 256`
reductions exactly where the C code truncates.
-/

set_option maxRecDepth 10000

/-- The state of the C `FILE*` used by the program: the file contents,
the read cursor (`ftell`), and the end-of-file indicator (`feof`). -/
structure ByteSrc where
  data : List Nat
  pos : Nat
  eof : Bool
deriving DecidableEq, Repr

/-- Embeds `get1Byte` (djifix.c:336): one `fgetc`, failing when the
end-of-file indicator is (or becomes) set; on success the result is the
byte cast to `unsigned char` (hence the `% 256`). -/
def get1Byte (st : ByteSrc) : Option Nat × ByteSrc :=
  if st.eof then (none, st)
  else if h : st.pos < st.data.length then
    (some (st.data.get ⟨st.pos, h⟩ % 256), { st with pos := st.pos + 1 })
  else
    (none, { st with eof := true })

/-- Embeds the bare `fputc(fgetc(fid))` step of the copy loops: at
end-of-input `fgetc` yields `EOF` (-1) and `fputc` truncates it to the
byte `0xFF`; otherwise the read byte is written unchanged. -/
def fgetcByte (st : ByteSrc) : Nat × ByteSrc :=
  if st.eof then (255, st)
  else if h : st.pos < st.data.length then
    (st.data.get ⟨st.pos, h⟩ % 256, { st with pos := st.pos + 1 })
  else
    (255, { st with eof := true })

/-- Embeds `get4Bytes` (djifix.c:346): four sequential byte reads,
combined big-endian as `(c1<<24)|(c2<<16)|(c3<<8)|c4`. -/
def get4Bytes (st : ByteSrc) : Option Nat × ByteSrc :=
  match get1Byte st with
  | (none, st1) => (none, st1)
  | (some c1, st1) =>
    match get1Byte st1 with
    | (none, st2) => (none, st2)
    | (some c2, st2) =>
      match get1Byte st2 with
      | (none, st3) => (none, st3)
      | (some c3, st3) =>
        match get1Byte st3 with
        | (none, st4) => (none, st4)
        | (some c4, st4) => (some (c1 <<< 24 ||| c2 <<< 16 ||| c3 <<< 8 ||| c4), st4)

/-- Embeds a forward `fseek(fid, off, SEEK_CUR)` with a nonnegative
offset: on a regular file this always succeeds (even past end-of-data)
and clears the end-of-file indicator. -/
def skipForward (st : ByteSrc) (off : Nat) : ByteSrc :=
  ⟨st.data, st.pos + off, false⟩

/-- Embeds `fseek(fid, off, SEEK_CUR)` with a possibly negative offset:
fails (returns `none`, C returns nonzero) when the target position would
be negative; on success clears the end-of-file indicator. -/
def fseekCur (st : ByteSrc) (off : Int) : Option ByteSrc :=
  if 0 ≤ (st.pos : Int) + off then
    some ⟨st.data, ((st.pos : Int) + off).toNat, false⟩
  else
    none

/-- The byte of the file at offset `j` (0 when out of range), reduced to
an actual byte value as `get1Byte` does. -/
def bAt (data : List Nat) (j : Nat) : Nat :=
  data.getD j 0 % 256

/-- Big-endian combination of four bytes, the shape produced by
`get4Bytes`. -/
def mkWord (a b c d : Nat) : Nat :=
  a <<< 24 ||| b <<< 16 ||| c <<< 8 ||| d

/-- The 32-bit big-endian word of the file starting at offset `j`. -/
def wordAt (data : List Nat) (j : Nat) : Nat :=
  mkWord (bAt data j) (bAt data (j + 1)) (bAt data (j + 2)) (bAt data (j + 3))

theorem get1Byte_eq_some {st : ByteSrc} {c : Nat} {st1 : ByteSrc}
    (h : get1Byte st = (some c, st1)) :
    st.eof = false ∧ st.pos < st.data.length ∧
      c = bAt st.data st.pos ∧ st1 = ⟨st.data, st.pos + 1, false⟩ := by
  obtain ⟨d, p, e⟩ := st
  simp only [get1Byte] at h
  split at h
  · exact absurd h (by simp)
  · next he =>
    split at h
    · next hlt =>
      simp only [Prod.mk.injEq, Option.some.injEq] at h
      have he2 : e = false := by revert he; cases e <;> simp
      subst he2
      refine ⟨rfl, hlt, ?_, h.2.symm⟩
      rw [← h.1, bAt, List.getD_eq_getElem _ _ hlt]
      simp
    · exact absurd h (by simp)

theorem get1Byte_pos_ok {data : List Nat} {p : Nat} (h : p < data.length) :
    get1Byte ⟨data, p, false⟩ = (some (bAt data p), ⟨data, p + 1, false⟩) := by
  simp [get1Byte, h, bAt, List.getD_eq_getElem]

theorem get1Byte_pos_end {data : List Nat} {p : Nat} (h : ¬ p < data.length) :
    get1Byte ⟨data, p, false⟩ = (none, ⟨data, p, true⟩) := by
  simp [get1Byte, h]

theorem get4Bytes_ok {data : List Nat} {p : Nat} (h : p + 4 ≤ data.length) :
    get4Bytes ⟨data, p, false⟩ = (some (wordAt data p), ⟨data, p + 4, false⟩) := by
  have h1 : p < data.length := by omega
  have h2 : p + 1 < data.length := by omega
  have h3 : p + 2 < data.length := by omega
  have h4 : p + 3 < data.length := by omega
  simp [get4Bytes, get1Byte_pos_ok h1, get1Byte_pos_ok h2, get1Byte_pos_ok h3,
    get1Byte_pos_ok h4, wordAt, mkWord]

theorem get4Bytes_fail {data : List Nat} {p : Nat} (h : data.length < p + 4)
    (hp : p ≤ data.length) :
    get4Bytes ⟨data, p, false⟩ = (none, ⟨data, data.length, true⟩) := by
  have hc : data.length = p ∨ data.length = p + 1 ∨ data.length = p + 2 ∨
      data.length = p + 3 := by omega
  rcases hc with hl | hl | hl | hl
  · rw [hl]
    simp [get4Bytes, get1Byte_pos_end (show ¬ p < data.length by omega)]
  · rw [hl]
    simp [get4Bytes, get1Byte_pos_ok (show p < data.length by omega),
      get1Byte_pos_end (show ¬ p + 1 < data.length by omega)]
  · rw [hl]
    simp [get4Bytes, get1Byte_pos_ok (show p < data.length by omega),
      get1Byte_pos_ok (show p + 1 < data.length by omega),
      get1Byte_pos_end (show ¬ p + 2 < data.length by omega)]
  · rw [hl]
    simp [get4Bytes, get1Byte_pos_ok (show p < data.length by omega),
      get1Byte_pos_ok (show p + 1 < data.length by omega),
      get1Byte_pos_ok (show p + 2 < data.length by omega),
      get1Byte_pos_end (show ¬ p + 3 < data.length by omega)]

/-- The four-character codes from djifix.c:62-65, built exactly as the C
macros build them: `(('f'<<24)|('t'<<16)|('y'<<8)|'p')` and so on. -/
def fourccFtyp : Nat := 102 <<< 24 ||| 116 <<< 16 ||| 121 <<< 8 ||| 112

/-- The `moov` four-character code (djifix.c:63). -/
def fourccMoov : Nat := 109 <<< 24 ||| 111 <<< 16 ||| 111 <<< 8 ||| 118

/-- The `free` four-character code (djifix.c:64). -/
def fourccFree : Nat := 102 <<< 24 ||| 114 <<< 16 ||| 101 <<< 8 ||| 101

/-- The `mdat` four-character code (djifix.c:65). -/
def fourccMdat : Nat := 109 <<< 24 ||| 100 <<< 16 ||| 97 <<< 8 ||| 116

/-- Embeds `checkAtom` (djifix.c:358): read a 4-byte size and a 4-byte
tag; fail on end-of-input, tag mismatch, or `size < 8`; on success
return `size - 8`.  The stream is left wherever the reads advanced it,
both on success and on failure. -/
def checkAtom (st : ByteSrc) (fourccToCheck : Nat) : Option Nat × ByteSrc :=
  match get4Bytes st with
  | (none, st1) => (none, st1)
  | (some atomSize, st1) =>
    match get4Bytes st1 with
    | (none, st2) => (none, st2)
    | (some fourcc, st2) =>
      if fourcc ≠ fourccToCheck then (none, st2)
      else if atomSize < 8 then (none, st2)
      else (some (atomSize - 8), st2)

/-- C7: the atom probe returns `none` exactly when end-of-input occurs
during the 8-byte header read, or the read tag differs from the expected
tag, or the read size is less than 8; otherwise it returns
`some (size - 8)` and leaves the cursor immediately past the 8-byte
header; on failure the cursor is not restored — it stays wherever the
header reads advanced it, i.e. at `min (p + 8) (length of the input)`. -/
theorem C7_checkAtom_contract (data : List Nat) (p tag : Nat) (hp : p ≤ data.length) :
    ((checkAtom ⟨data, p, false⟩ tag).1 = none ↔
      (data.length < p + 8 ∨ wordAt data (p + 4) ≠ tag ∨ wordAt data p < 8))
    ∧ (p + 8 ≤ data.length → wordAt data (p + 4) = tag → 8 ≤ wordAt data p →
        checkAtom ⟨data, p, false⟩ tag = (some (wordAt data p - 8), ⟨data, p + 8, false⟩))
    ∧ ((checkAtom ⟨data, p, false⟩ tag).1 = none →
        (checkAtom ⟨data, p, false⟩ tag).2.pos = min (p + 8) data.length) := by
  by_cases h4 : p + 4 ≤ data.length
  · by_cases h8 : p + 8 ≤ data.length
    · have hck : checkAtom ⟨data, p, false⟩ tag =
          (if wordAt data (p + 4) ≠ tag then (none, ⟨data, p + 8, false⟩)
           else if wordAt data p < 8 then (none, ⟨data, p + 8, false⟩)
           else (some (wordAt data p - 8), ⟨data, p + 8, false⟩)) := by
        simp only [checkAtom, get4Bytes_ok h4,
          get4Bytes_ok (show p + 4 + 4 ≤ data.length by omega)]
      rw [hck]
      by_cases ht : wordAt data (p + 4) = tag
      · by_cases hs : wordAt data p < 8
        · simp [ht, hs]
          omega
        · simp [ht, hs]
          omega
      · simp [ht]
        omega
    · have hck : checkAtom ⟨data, p, false⟩ tag = (none, ⟨data, data.length, true⟩) := by
        simp only [checkAtom, get4Bytes_ok h4,
          get4Bytes_fail (show data.length < p + 4 + 4 by omega) (by omega)]
      rw [hck]
      simp
      omega
  · have hck : checkAtom ⟨data, p, false⟩ tag = (none, ⟨data, data.length, true⟩) := by
      simp only [checkAtom, get4Bytes_fail (show data.length < p + 4 by omega) hp]
    rw [hck]
    simp
    omega

/-- Witness for C7 at a concrete input: a well-formed `ftyp` atom of
size 12 at offset 0. -/
theorem C7_checkAtom_contract_witness :
    ((0 : Nat) ≤ ([0, 0, 0, 12, 102, 116, 121, 112, 1, 2, 3, 4] : List Nat).length) ∧
    (((checkAtom ⟨[0, 0, 0, 12, 102, 116, 121, 112, 1, 2, 3, 4], 0, false⟩ fourccFtyp).1 = none ↔
      (([0, 0, 0, 12, 102, 116, 121, 112, 1, 2, 3, 4] : List Nat).length < 0 + 8 ∨
        wordAt [0, 0, 0, 12, 102, 116, 121, 112, 1, 2, 3, 4] (0 + 4) ≠ fourccFtyp ∨
        wordAt [0, 0, 0, 12, 102, 116, 121, 112, 1, 2, 3, 4] 0 < 8))
    ∧ (0 + 8 ≤ ([0, 0, 0, 12, 102, 116, 121, 112, 1, 2, 3, 4] : List Nat).length →
        wordAt [0, 0, 0, 12, 102, 116, 121, 112, 1, 2, 3, 4] (0 + 4) = fourccFtyp →
        8 ≤ wordAt [0, 0, 0, 12, 102, 116, 121, 112, 1, 2, 3, 4] 0 →
        checkAtom ⟨[0, 0, 0, 12, 102, 116, 121, 112, 1, 2, 3, 4], 0, false⟩ fourccFtyp =
          (some (wordAt [0, 0, 0, 12, 102, 116, 121, 112, 1, 2, 3, 4] 0 - 8),
            ⟨[0, 0, 0, 12, 102, 116, 121, 112, 1, 2, 3, 4], 0 + 8, false⟩))
    ∧ ((checkAtom ⟨[0, 0, 0, 12, 102, 116, 121, 112, 1, 2, 3, 4], 0, false⟩ fourccFtyp).1 = none →
        (checkAtom ⟨[0, 0, 0, 12, 102, 116, 121, 112, 1, 2, 3, 4], 0, false⟩ fourccFtyp).2.pos =
          min (0 + 8) ([0, 0, 0, 12, 102, 116, 121, 112, 1, 2, 3, 4] : List Nat).length)) :=
  ⟨by decide, C7_checkAtom_contract [0, 0, 0, 12, 102, 116, 121, 112, 1, 2, 3, 4] 0
    fourccFtyp (by decide)⟩

/-- Embeds the copy loop of `doRepairType1` (djifix.c:391):
`while (get1Byte(inputFID, &c)) fputc(c, outputFID);`. -/
def copyAll (st : ByteSrc) : List Nat :=
  match h : get1Byte st with
  | (none, _) => []
  | (some c, st1) => c :: copyAll st1
termination_by st.data.length - st.pos
decreasing_by
  obtain ⟨-, hlt, -, rfl⟩ := get1Byte_eq_some h
  simp
  omega

/-- Embeds `doRepairType1` (djifix.c:376): write the four bytes of
`ftypSize` big-endian (each `fputc` truncates to a byte), write the four
ASCII bytes `'f' 't' 'y' 'p'`, then copy the remaining input verbatim. -/
def doRepairType1 (st : ByteSrc) (ftypSize : Nat) : List Nat :=
  [(ftypSize >>> 24) % 256, (ftypSize >>> 16) % 256, (ftypSize >>> 8) % 256, ftypSize % 256]
    ++ [102, 116, 121, 112]
    ++ copyAll st

theorem copyAll_cons {data : List Nat} {p : Nat} (h : p < data.length) :
    copyAll ⟨data, p, false⟩ = bAt data p :: copyAll ⟨data, p + 1, false⟩ := by
  rw [copyAll, get1Byte_pos_ok h]

theorem copyAll_nil {data : List Nat} {p : Nat} (h : ¬ p < data.length) :
    copyAll ⟨data, p, false⟩ = [] := by
  rw [copyAll, get1Byte_pos_end h]

theorem copyAll_eq (data : List Nat) (p : Nat) :
    copyAll ⟨data, p, false⟩ = (data.drop p).map (· % 256) := by
  suffices H : ∀ n p, data.length - p ≤ n →
      copyAll ⟨data, p, false⟩ = (data.drop p).map (· % 256) by
    exact H data.length p (by omega)
  intro n
  induction n with
  | zero =>
    intro p hp
    rw [copyAll_nil (by omega), List.drop_eq_nil_of_le (by omega)]
    rfl
  | succ n ih =>
    intro p hp
    by_cases hlt : p < data.length
    · rw [copyAll_cons hlt, ih (p + 1) (by omega), List.drop_eq_getElem_cons hlt]
      rw [List.map_cons]
      congr 1
      rw [bAt, List.getD_eq_getElem _ _ hlt]
    · rw [copyAll_nil hlt, List.drop_eq_nil_of_le (by omega)]
      rfl

/-- C1: for every input accepted by Repair Path A with recovered inner
size `S`, `doRepairType1` writes exactly: the 4 bytes of `S` in
big-endian order, the 4 ASCII bytes of `ftyp`, then a byte-for-byte
verbatim copy of every input byte from the cursor position to
end-of-input. -/
theorem C1_repairA_output (st : ByteSrc) (S : Nat) (heof : st.eof = false)
    (hS : S < 4294967296) (hbytes : ∀ b ∈ st.data, b < 256) :
    doRepairType1 st S =
      [S / 16777216, S / 65536 % 256, S / 256 % 256, S % 256]
        ++ [102, 116, 121, 112] ++ st.data.drop st.pos := by
  obtain ⟨d, p, e⟩ := st
  simp only at heof
  subst heof
  have hmap : (d.drop p).map (· % 256) = d.drop p := by
    have h1 : (d.drop p).map (· % 256) = (d.drop p).map id :=
      List.map_congr_left fun b hb =>
        Nat.mod_eq_of_lt (hbytes b (List.drop_subset _ _ hb))
    rw [h1, List.map_id]
  simp only [doRepairType1, copyAll_eq, hmap, Nat.shiftRight_eq_div_pow]
  norm_num
  omega

/-- Witness for C1 at a concrete input. -/
theorem C1_repairA_output_witness :
    (⟨[170, 187], 0, false⟩ : ByteSrc).eof = false ∧ (20 : Nat) < 4294967296 ∧
      (∀ b ∈ (⟨[170, 187], 0, false⟩ : ByteSrc).data, b < 256) ∧
      doRepairType1 ⟨[170, 187], 0, false⟩ 20 =
        [20 / 16777216, 20 / 65536 % 256, 20 / 256 % 256, 20 % 256]
          ++ [102, 116, 121, 112] ++ ([170, 187] : List Nat).drop 0 :=
  ⟨rfl, by decide, by decide,
    C1_repairA_output ⟨[170, 187], 0, false⟩ 20 rfl (by decide) (by decide)⟩

/-- The `SPS_2160p30` parameter-set byte array (djifix.c), terminated by `0xFF`. -/
def SPS_2160p30 : List Nat :=
  [39, 100, 0, 51, 172, 52, 200, 3, 192, 4, 62, 192, 90, 128,
   128, 128, 160, 0, 0, 125, 32, 0, 29, 76, 29, 12, 0, 7,
   39, 8, 0, 1, 201, 195, 151, 121, 113, 161, 128, 0, 228, 225,
   0, 0, 57, 56, 114, 239, 46, 31, 8, 132, 83, 128, 255]

/-- The `SPS_2160p25` parameter-set byte array (djifix.c), terminated by `0xFF`. -/
def SPS_2160p25 : List Nat :=
  [39, 100, 0, 51, 172, 52, 200, 3, 192, 4, 62, 192, 90, 128,
   128, 128, 160, 0, 0, 125, 0, 0, 24, 106, 29, 12, 0, 7,
   39, 8, 0, 1, 201, 195, 151, 121, 113, 161, 128, 0, 228, 225,
   0, 0, 57, 56, 114, 239, 46, 31, 8, 132, 83, 128, 255]

/-- The `SPS_2160p24` parameter-set byte array (djifix.c), terminated by `0xFF`. -/
def SPS_2160p24 : List Nat :=
  [39, 100, 0, 51, 172, 52, 200, 1, 0, 1, 15, 176, 22, 160,
   32, 32, 40, 0, 0, 31, 72, 0, 5, 220, 7, 67, 0, 1,
   201, 194, 0, 0, 114, 112, 229, 222, 92, 104, 96, 0, 57, 56,
   64, 0, 14, 78, 28, 187, 255]

/-- The `SPS_1520p30` parameter-set byte array (djifix.c), terminated by `0xFF`. -/
def SPS_1520p30 : List Nat :=
  [39, 100, 0, 41, 172, 52, 200, 2, 164, 11, 251, 1, 106, 2,
   2, 2, 128, 0, 1, 244, 128, 0, 117, 48, 116, 48, 0, 19,
   18, 192, 0, 4, 196, 180, 93, 229, 198, 134, 0, 2, 98, 88,
   0, 0, 152, 150, 139, 188, 184, 124, 34, 17, 78, 0, 0, 0,
   255]

/-- The `SPS_1520p25` parameter-set byte array (djifix.c), terminated by `0xFF`. -/
def SPS_1520p25 : List Nat :=
  [39, 100, 0, 41, 172, 52, 200, 2, 164, 11, 251, 1, 106, 2,
   2, 2, 128, 0, 0, 3, 0, 128, 0, 0, 25, 116, 48, 0,
   19, 18, 192, 0, 4, 196, 180, 93, 229, 198, 134, 0, 2, 98,
   88, 0, 0, 152, 150, 139, 188, 184, 124, 34, 17, 78, 255]

/-- The `SPS_1080p60` parameter-set byte array (djifix.c), terminated by `0xFF`. -/
def SPS_1080p60 : List Nat :=
  [39, 100, 0, 42, 172, 52, 200, 7, 128, 34, 126, 92, 5, 168,
   8, 8, 10, 0, 0, 7, 210, 0, 3, 169, 129, 208, 192, 0,
   76, 75, 0, 0, 19, 18, 209, 119, 151, 26, 24, 0, 9, 137,
   96, 0, 2, 98, 90, 46, 242, 225, 240, 136, 69, 22, 255]

/-- The `SPS_1080i60` parameter-set byte array (djifix.c), terminated by `0xFF`. -/
def SPS_1080i60 : List Nat :=
  [39, 77, 0, 42, 154, 102, 3, 192, 34, 62, 240, 22, 200, 0,
   0, 31, 72, 0, 7, 83, 7, 67, 0, 2, 54, 120, 0, 2,
   54, 120, 93, 229, 198, 134, 0, 4, 108, 240, 0, 4, 108, 240,
   187, 203, 135, 194, 33, 20, 88, 255]

/-- The `SPS_1080p50` parameter-set byte array (djifix.c), terminated by `0xFF`. -/
def SPS_1080p50 : List Nat :=
  [39, 100, 0, 41, 172, 52, 200, 7, 128, 34, 126, 92, 5, 168,
   8, 8, 10, 0, 0, 7, 208, 0, 3, 13, 65, 208, 192, 0,
   76, 75, 0, 0, 19, 18, 209, 119, 151, 26, 24, 0, 9, 137,
   96, 0, 2, 98, 90, 46, 242, 225, 240, 136, 69, 22, 255]

/-- The `SPS_1080p30` parameter-set byte array (djifix.c), terminated by `0xFF`. -/
def SPS_1080p30 : List Nat :=
  [39, 77, 0, 40, 154, 102, 3, 192, 17, 63, 46, 2, 217, 0,
   0, 3, 3, 233, 0, 0, 234, 96, 232, 96, 0, 226, 152, 0,
   3, 138, 96, 187, 203, 141, 12, 0, 28, 83, 0, 0, 113, 76,
   23, 121, 112, 248, 68, 34, 139, 255]

/-- The `SPS_1080p25` parameter-set byte array (djifix.c), terminated by `0xFF`. -/
def SPS_1080p25 : List Nat :=
  [39, 77, 0, 40, 154, 102, 3, 192, 17, 63, 46, 2, 217, 0,
   0, 3, 3, 232, 0, 0, 195, 80, 232, 96, 0, 220, 240, 0,
   3, 115, 184, 187, 203, 141, 12, 0, 27, 158, 0, 0, 110, 119,
   23, 121, 112, 248, 68, 34, 139, 255]

/-- The `SPS_1080p24` parameter-set byte array (djifix.c), terminated by `0xFF`. -/
def SPS_1080p24 : List Nat :=
  [39, 100, 0, 41, 172, 52, 200, 7, 128, 34, 126, 92, 5, 168,
   8, 8, 10, 0, 0, 7, 210, 0, 1, 119, 1, 208, 192, 0,
   190, 188, 0, 0, 190, 188, 23, 121, 113, 161, 128, 1, 125, 120,
   0, 1, 125, 120, 46, 242, 225, 240, 136, 69, 22, 0, 0, 0,
   255]

/-- The `SPS_720p60` parameter-set byte array (djifix.c), terminated by `0xFF`. -/
def SPS_720p60 : List Nat :=
  [39, 77, 0, 32, 154, 102, 2, 128, 45, 216, 11, 100, 0, 0,
   15, 164, 0, 7, 83, 3, 161, 128, 3, 138, 96, 0, 14, 41,
   130, 239, 46, 52, 48, 0, 113, 76, 0, 1, 197, 48, 93, 229,
   195, 225, 16, 138, 52, 255]

/-- The `SPS_720p30` parameter-set byte array (djifix.c), terminated by `0xFF`. -/
def SPS_720p30 : List Nat :=
  [39, 77, 0, 31, 154, 102, 2, 128, 45, 216, 11, 100, 0, 0,
   15, 164, 0, 3, 169, 131, 161, 128, 2, 92, 64, 0, 9, 113,
   2, 239, 46, 52, 48, 0, 75, 136, 0, 1, 46, 32, 93, 229,
   195, 225, 16, 138, 52, 255]

/-- The `SPS_720p25` parameter-set byte array (djifix.c), terminated by `0xFF`. -/
def SPS_720p25 : List Nat :=
  [39, 100, 0, 40, 172, 52, 200, 5, 0, 91, 176, 22, 160, 32,
   32, 40, 0, 0, 31, 64, 0, 6, 26, 135, 67, 0, 15, 212,
   128, 0, 253, 75, 93, 229, 198, 134, 0, 31, 169, 0, 1, 250,
   150, 187, 203, 135, 194, 33, 20, 120, 255]

/-- The `SPS_480p30` parameter-set byte array (djifix.c), terminated by `0xFF`. -/
def SPS_480p30 : List Nat :=
  [39, 77, 64, 30, 154, 102, 5, 1, 237, 128, 182, 64, 0, 0,
   250, 64, 0, 58, 152, 58, 16, 0, 94, 104, 0, 2, 243, 64,
   187, 203, 141, 8, 0, 47, 52, 0, 1, 121, 160, 93, 229, 195,
   225, 16, 138, 60, 255]

/-- The `PPS_P2VP` parameter-set byte array (djifix.c), terminated by `0xFF`. -/
def PPS_P2VP : List Nat :=
  [40, 238, 60, 128, 255]

/-- The `PPS_Inspire` parameter-set byte array (djifix.c), terminated by `0xFF`. -/
def PPS_Inspire : List Nat :=
  [40, 238, 56, 48, 255]

/-- Embeds `putStartCode` (djifix.c:397): the four bytes
`00 00 00 01`. -/
def startCode : List Nat := [0, 0, 0, 1]

/-- Embeds the `switch (formatCode)` of `doRepairType2`
(djifix.c:465-482).  The format code is the character the user typed
(`getchar`), as a natural number; unmatched codes take the `default`
branch, which selects the same pair as `'8'` (1080p/30 SPS with the
P2VP PPS). -/
def selectProfile (formatCode : Nat) : List Nat × List Nat :=
  if formatCode = 48 then (SPS_2160p30, PPS_Inspire)
  else if formatCode = 49 then (SPS_2160p25, PPS_Inspire)
  else if formatCode = 50 then (SPS_2160p24, PPS_Inspire)
  else if formatCode = 51 then (SPS_1520p30, PPS_Inspire)
  else if formatCode = 52 then (SPS_1520p25, PPS_Inspire)
  else if formatCode = 53 then (SPS_1080p60, PPS_Inspire)
  else if formatCode = 54 then (SPS_1080i60, PPS_P2VP)
  else if formatCode = 55 then (SPS_1080p50, PPS_Inspire)
  else if formatCode = 56 then (SPS_1080p30, PPS_P2VP)
  else if formatCode = 57 then (SPS_1080p25, PPS_P2VP)
  else if formatCode = 97 ∨ formatCode = 65 then (SPS_1080p24, PPS_Inspire)
  else if formatCode = 98 ∨ formatCode = 66 then (SPS_720p60, PPS_P2VP)
  else if formatCode = 99 ∨ formatCode = 67 then (SPS_720p30, PPS_P2VP)
  else if formatCode = 100 ∨ formatCode = 68 then (SPS_720p25, PPS_Inspire)
  else if formatCode = 101 ∨ formatCode = 69 then (SPS_480p30, PPS_P2VP)
  else (SPS_1080p30, PPS_P2VP)

/-- Embeds the payload-copy loop of `doRepairType2` (djifix.c:512-514):
`while (nalSize-- > 0) { wr(fgetc(inputFID)); }` — note there is no
end-of-input check inside this loop. -/
def copyN (st : ByteSrc) : Nat → List Nat × ByteSrc
  | 0 => ([], st)
  | n + 1 =>
    let s := fgetcByte st
    let r := copyN s.2 n
    (s.1 :: r.1, r.2)

/-- Embeds the anomaly-recovery loop of `doRepairType2`
(djifix.c:524-527): read one byte at a time into the 32-bit `nalSize`
accumulator (`nalSize = (nalSize<<8)|c`, truncated to 32 bits) until it
equals 2; `none` models the `return` taken at end-of-input. -/
def recover (st : ByteSrc) (nalSize : Nat) : Option ByteSrc :=
  match h : get1Byte st with
  | (none, _) => none
  | (some c, st1) =>
    let ns := ((nalSize <<< 8) ||| c) % 4294967296
    if ns = 2 then some st1 else recover st1 ns
termination_by st.data.length - st.pos
decreasing_by
  obtain ⟨-, hlt, -, rfl⟩ := get1Byte_eq_some h
  simp
  omega

/-- Embeds the main loop of `doRepairType2` (djifix.c:510-530), with
explicit fuel (`none` means the fuel ran out, not a program outcome):
while not at end-of-file, write a start code, copy `nalSize` payload
bytes, read the next 4-byte size (returning on end-of-input), and run
the anomaly recovery when that size is 0 or above `0x00FFFFFF`. -/
def restreamLoop : Nat → ByteSrc → Nat → Option (List Nat)
  | 0, _, _ => none
  | fuel + 1, st, nalSize =>
    if st.eof then some [] else
    let cp := copyN st nalSize
    match get4Bytes cp.2 with
    | (none, _) => some (startCode ++ cp.1)
    | (some sz, st2) =>
      if sz = 0 ∨ 16777215 < sz then
        match recover st2 sz with
        | none => some (startCode ++ cp.1)
        | some st3 => (restreamLoop fuel st3 2).map (fun out => startCode ++ cp.1 ++ out)
      else
        (restreamLoop fuel st2 sz).map (fun out => startCode ++ cp.1 ++ out)

/-- Embeds `doRepairType2` (djifix.c:422-532) from the point where the
format code has been obtained: write start-code + SPS (up to its 0xFF
terminator), start-code + PPS, start-code + the two high bytes of
`second4Bytes`, then read two bytes to complete the first NAL size and
enter the restream loop. -/
def doRepairType2 (st : ByteSrc) (formatCode second4Bytes : Nat) (fuel : Nat) :
    Option (List Nat) :=
  let prof := selectProfile formatCode
  let head := startCode ++ prof.1.takeWhile (fun b => b != 255)
    ++ startCode ++ prof.2.takeWhile (fun b => b != 255)
    ++ startCode ++ [(second4Bytes >>> 24) % 256, (second4Bytes >>> 16) % 256]
  match get1Byte st with
  | (none, _) => some head
  | (some c1, st1) =>
    match get1Byte st1 with
    | (none, _) => some head
    | (some c2, st2) =>
      (restreamLoop fuel st2 (((second4Bytes &&& 65535) <<< 16) ||| c1 <<< 8 ||| c2)).map
        (fun out => head ++ out)

/-- C8: for every format-profile selector outside the 15 supported codes
(`'0'`-`'9'`, `'a'`-`'e'`, `'A'`-`'E'`), the profile selection does not
fail: the `default` branch selects the same parameter-set pair as
selector `'8'` (the 1080p/30 SPS and the P2VP PPS), and the repair
proceeds exactly as it would with selector `'8'`. -/
theorem C8_profile_fallback (code : Nat)
    (h : ¬ ((48 ≤ code ∧ code ≤ 57) ∨ (97 ≤ code ∧ code ≤ 101) ∨
      (65 ≤ code ∧ code ≤ 69))) :
    selectProfile code = (SPS_1080p30, PPS_P2VP) ∧
      selectProfile code = selectProfile 56 ∧
      (∀ st second fuel, doRepairType2 st code second fuel =
        doRepairType2 st 56 second fuel) := by
  have hsel : selectProfile code = (SPS_1080p30, PPS_P2VP) := by
    rw [selectProfile]
    iterate 15 rw [if_neg (by omega)]
  have hsel8 : selectProfile 56 = (SPS_1080p30, PPS_P2VP) := by
    rw [selectProfile]
    norm_num
  refine ⟨hsel, hsel.trans hsel8.symm, fun st second fuel => ?_⟩
  rw [doRepairType2, doRepairType2, hsel, hsel8]

/-- Witness for C8 at the concrete out-of-range selector 70 (`'F'`). -/
theorem C8_profile_fallback_witness :
    (¬ ((48 ≤ 70 ∧ 70 ≤ 57) ∨ (97 ≤ 70 ∧ 70 ≤ 101) ∨ (65 ≤ 70 ∧ 70 ≤ 69))) ∧
    (selectProfile 70 = (SPS_1080p30, PPS_P2VP) ∧
      selectProfile 70 = selectProfile 56 ∧
      (∀ st second fuel, doRepairType2 st 70 second fuel =
        doRepairType2 st 56 second fuel)) :=
  ⟨by decide, C8_profile_fallback 70 (by decide)⟩

/-- C2: with profile selector `'8'` (character code 56), the output of
the restream engine begins with exactly: a start code, profile 8's SPS
bytes up to (not including) the 0xFF terminator, a start code, its PPS
bytes up to the terminator, a start code, and the two high bytes of the
carried word; and when two more input bytes are available the engine
enters its main loop with first unit length
`((second4Bytes & 0xFFFF) << 16) | (c1 << 8) | c2`. -/
theorem C2_profile8_output (st : ByteSrc) (second fuel : Nat) (heof : st.eof = false) :
    (∀ out, doRepairType2 st 56 second fuel = some out →
      ∃ rest, out = startCode ++ SPS_1080p30.takeWhile (fun b => b != 255)
        ++ startCode ++ PPS_P2VP.takeWhile (fun b => b != 255)
        ++ startCode ++ [(second >>> 24) % 256, (second >>> 16) % 256] ++ rest)
    ∧ (st.pos + 2 ≤ st.data.length →
        doRepairType2 st 56 second fuel =
          (restreamLoop fuel ⟨st.data, st.pos + 2, false⟩
              (((second &&& 65535) <<< 16) ||| bAt st.data st.pos <<< 8
                ||| bAt st.data (st.pos + 1))).map
            (fun out => startCode ++ SPS_1080p30.takeWhile (fun b => b != 255)
              ++ startCode ++ PPS_P2VP.takeWhile (fun b => b != 255)
              ++ startCode ++ [(second >>> 24) % 256, (second >>> 16) % 256] ++ out)) := by
  obtain ⟨d, p, e⟩ := st
  simp only at heof
  subst heof
  have hsel8 : selectProfile 56 = (SPS_1080p30, PPS_P2VP) := by
    rw [selectProfile]
    norm_num
  constructor
  · intro out hout
    by_cases h1 : p < d.length
    · by_cases h2 : p + 1 < d.length
      · simp only [doRepairType2, hsel8, get1Byte_pos_ok h1, get1Byte_pos_ok h2] at hout
        simp only [Option.map_eq_some'] at hout
        obtain ⟨r, -, hr⟩ := hout
        exact ⟨r, by rw [← hr]; try simp⟩
      · simp only [doRepairType2, hsel8, get1Byte_pos_ok h1, get1Byte_pos_end h2] at hout
        refine ⟨[], ?_⟩
        simp only [Option.some.injEq] at hout
        rw [← hout]
        simp
    · simp only [doRepairType2, hsel8, get1Byte_pos_end h1] at hout
      refine ⟨[], ?_⟩
      simp only [Option.some.injEq] at hout
      rw [← hout]
      simp
  · intro hlen
    have hlen2 : p + 2 ≤ d.length := hlen
    simp only [doRepairType2, hsel8, get1Byte_pos_ok (show p < d.length by omega),
      get1Byte_pos_ok (show p + 1 < d.length by omega)]
    try simp

/-- Witness for C2 at a concrete input. -/
theorem C2_profile8_output_witness :
    (⟨[3, 4, 9, 9, 9], 0, false⟩ : ByteSrc).eof = false ∧
    ((∀ out, doRepairType2 ⟨[3, 4, 9, 9, 9], 0, false⟩ 56 2 5 = some out →
      ∃ rest, out = startCode ++ SPS_1080p30.takeWhile (fun b => b != 255)
        ++ startCode ++ PPS_P2VP.takeWhile (fun b => b != 255)
        ++ startCode ++ [(2 >>> 24) % 256, (2 >>> 16) % 256] ++ rest)
    ∧ ((⟨[3, 4, 9, 9, 9], 0, false⟩ : ByteSrc).pos + 2 ≤
          (⟨[3, 4, 9, 9, 9], 0, false⟩ : ByteSrc).data.length →
        doRepairType2 ⟨[3, 4, 9, 9, 9], 0, false⟩ 56 2 5 =
          (restreamLoop 5 ⟨(⟨[3, 4, 9, 9, 9], 0, false⟩ : ByteSrc).data,
              (⟨[3, 4, 9, 9, 9], 0, false⟩ : ByteSrc).pos + 2, false⟩
              (((2 &&& 65535) <<< 16) |||
                bAt (⟨[3, 4, 9, 9, 9], 0, false⟩ : ByteSrc).data
                  (⟨[3, 4, 9, 9, 9], 0, false⟩ : ByteSrc).pos <<< 8
                ||| bAt (⟨[3, 4, 9, 9, 9], 0, false⟩ : ByteSrc).data
                  ((⟨[3, 4, 9, 9, 9], 0, false⟩ : ByteSrc).pos + 1))).map
            (fun out => startCode ++ SPS_1080p30.takeWhile (fun b => b != 255)
              ++ startCode ++ PPS_P2VP.takeWhile (fun b => b != 255)
              ++ startCode ++ [(2 >>> 24) % 256, (2 >>> 16) % 256] ++ out))) :=
  ⟨rfl, C2_profile8_output ⟨[3, 4, 9, 9, 9], 0, false⟩ 2 5 rfl⟩

theorem copyN_eof (d : List Nat) (q n : Nat) :
    copyN ⟨d, q, true⟩ n = (List.replicate n 255, ⟨d, q, true⟩) := by
  induction n with
  | zero => simp [copyN]
  | succ m hm =>
    rw [copyN]
    have hf : fgetcByte ⟨d, q, true⟩ = (255, ⟨d, q, true⟩) := by
      simp [fgetcByte]
    rw [hf]
    simp [hm, List.replicate_succ]

theorem copyN_ge (d : List Nat) : ∀ n p, p ≤ d.length → d.length - p ≤ n →
    copyN ⟨d, p, false⟩ n =
      ((d.drop p).map (· % 256) ++ List.replicate (n - (d.length - p)) 255,
        ⟨d, d.length, decide (d.length - p < n)⟩) := by
  intro n
  induction n with
  | zero =>
    intro p hp hn
    have hpl : p = d.length := by omega
    subst hpl
    simp [copyN, List.drop_eq_nil_of_le (le_refl p)]
  | succ n ih =>
    intro p hp hn
    by_cases hlt : p < d.length
    · have hf : fgetcByte ⟨d, p, false⟩ = (bAt d p, ⟨d, p + 1, false⟩) := by
        simp [fgetcByte, hlt, bAt, List.getD_eq_getElem _ _ hlt]
      rw [copyN, hf, ih (p + 1) (by omega) (by omega)]
      rw [List.drop_eq_getElem_cons hlt, List.map_cons]
      have e1 : n - (d.length - (p + 1)) = n + 1 - (d.length - p) := by omega
      have e2 : decide (d.length - (p + 1) < n) = decide (d.length - p < n + 1) :=
        decide_eq_decide.mpr (by omega)
      rw [e1, e2]
      simp [bAt, List.getD_eq_getElem _ _ hlt, List.getElem?_eq_getElem hlt]
    · have hpl : p = d.length := by omega
      have hf : fgetcByte ⟨d, p, false⟩ = (255, ⟨d, p, true⟩) := by
        simp [fgetcByte, hlt]
      rw [copyN, hf, copyN_eof]
      rw [List.drop_eq_nil_of_le (by omega)]
      have e1 : n + 1 - (d.length - p) = n + 1 := by omega
      have e2 : decide (d.length - p < n + 1) = true := by
        simp only [decide_eq_true_eq]
        omega
      rw [e1, e2, hpl]
      simp [List.replicate_succ]

theorem get4Bytes_eof {st : ByteSrc} (h : st.eof = true) : get4Bytes st = (none, st) := by
  simp [get4Bytes, get1Byte, h]

/-- C6 counterexample: a declared unit length of 4 with only two input
bytes left.  The engine does not truncate to the bytes actually read: it
pads the unit with `0xFF` bytes (the `fputc(fgetc(...))` of the copy
loop writes `(unsigned char)EOF`), so the output is
`start code ++ AA BB FF FF`, not `start code ++ AA BB`. -/
theorem C6_counterexample :
    restreamLoop 3 ⟨[170, 187], 0, false⟩ 4 = some [0, 0, 0, 1, 170, 187, 255, 255] ∧
      ([0, 0, 0, 1, 170, 187, 255, 255] : List Nat) ≠ [0, 0, 0, 1, 170, 187] := by
  decide

/-- C6 (amended): if end-of-input occurs while copying the declared
number of payload bytes, the engine writes the byte `0xFF` for each
remaining declared byte (the result of `fputc(fgetc(...))` at
end-of-file), after which the next length-field read fails and the run
ends cleanly; in particular when the declared length exactly consumes
the remaining input, no padding is written and end-of-input at the
length read ends the loop cleanly (not an error). -/
theorem C6_truncation_pads (d : List Nat) (p nal fuel : Nat) (hp : p ≤ d.length)
    (hn : d.length - p ≤ nal) (hf : 1 ≤ fuel) :
    restreamLoop fuel ⟨d, p, false⟩ nal =
      some (startCode ++ ((d.drop p).map (· % 256)
        ++ List.replicate (nal - (d.length - p)) 255)) := by
  obtain ⟨fuel, rfl⟩ : ∃ f, fuel = f + 1 := ⟨fuel - 1, by omega⟩
  rw [restreamLoop]
  rw [copyN_ge d nal p hp hn]
  by_cases hover : d.length - p < nal
  · have e : decide (d.length - p < nal) = true := by
      simp only [decide_eq_true_eq]
      exact hover
    rw [e]
    dsimp only
    rw [@get4Bytes_eof ⟨d, d.length, true⟩ rfl]
    simp
  · have e : decide (d.length - p < nal) = false := by
      simp only [decide_eq_false_iff_not]
      exact hover
    rw [e]
    dsimp only
    rw [get4Bytes_fail (show d.length < d.length + 4 by omega) (le_refl _)]
    simp

/-- Witness for the amended C6 at a concrete input. -/
theorem C6_truncation_pads_witness :
    (0 : Nat) ≤ ([170, 187] : List Nat).length ∧
      ([170, 187] : List Nat).length - 0 ≤ 4 ∧ (1 : Nat) ≤ 3 ∧
      restreamLoop 3 ⟨[170, 187], 0, false⟩ 4 =
        some (startCode ++ ((([170, 187] : List Nat).drop 0).map (· % 256)
          ++ List.replicate (4 - (([170, 187] : List Nat).length - 0)) 255)) :=
  ⟨by decide, by decide, by decide,
    C6_truncation_pads [170, 187] 0 4 3 (by decide) (by decide) (by decide)⟩

/-- The value of the recovery accumulator after reading `m` bytes
starting at offset `pos`, folding in each byte with the 32-bit update
`acc = (acc << 8) | c` of djifix.c:526. -/
def accAfter (data : List Nat) (pos acc m : Nat) : Nat :=
  ((data.drop pos).take m).foldl (fun a b => ((a <<< 8) ||| b % 256) % 4294967296) acc

theorem accAfter_succ {data : List Nat} {p : Nat} (hlt : p < data.length)
    (acc m : Nat) :
    accAfter data p acc (m + 1) =
      accAfter data (p + 1) (((acc <<< 8) ||| bAt data p) % 4294967296) m := by
  unfold accAfter
  rw [List.drop_eq_getElem_cons hlt, List.take_succ_cons, List.foldl_cons]
  rw [bAt, List.getD_eq_getElem _ _ hlt]

theorem accAfter_one {data : List Nat} {p : Nat} (hlt : p < data.length) (acc : Nat) :
    accAfter data p acc 1 = ((acc <<< 8) ||| bAt data p) % 4294967296 := by
  rw [accAfter_succ hlt]
  rfl

theorem recover_step {data : List Nat} {p : Nat} (hlt : p < data.length) (acc : Nat) :
    recover ⟨data, p, false⟩ acc =
      (if ((acc <<< 8) ||| bAt data p) % 4294967296 = 2 then some ⟨data, p + 1, false⟩
       else recover ⟨data, p + 1, false⟩ (((acc <<< 8) ||| bAt data p) % 4294967296)) := by
  rw [recover, get1Byte_pos_ok hlt]

theorem recover_end {data : List Nat} {p : Nat} (hlt : ¬ p < data.length) (acc : Nat) :
    recover ⟨data, p, false⟩ acc = none := by
  rw [recover, get1Byte_pos_end hlt]

theorem recover_finds (data : List Nat) : ∀ m p acc, 1 ≤ m → p + m ≤ data.length →
    accAfter data p acc m = 2 →
    (∀ m2, 1 ≤ m2 → m2 < m → accAfter data p acc m2 ≠ 2) →
    recover ⟨data, p, false⟩ acc = some ⟨data, p + m, false⟩ := by
  intro m
  induction m with
  | zero => omega
  | succ m ih =>
    intro p acc _ hpm hacc hno
    have hlt : p < data.length := by omega
    rw [recover_step hlt]
    by_cases hm : m = 0
    · subst hm
      rw [if_pos (by rw [← accAfter_one hlt acc]; exact hacc)]
    · have hne : ((acc <<< 8) ||| bAt data p) % 4294967296 ≠ 2 := by
        rw [← accAfter_one hlt acc]
        exact hno 1 (by omega) (by omega)
      rw [if_neg hne]
      have := ih (p + 1) (((acc <<< 8) ||| bAt data p) % 4294967296) (by omega) (by omega)
        (by rw [← accAfter_succ hlt]; exact hacc)
        (fun m2 h1 h2 => by
          rw [← accAfter_succ hlt]
          exact hno (m2 + 1) (by omega) (by omega))
      rw [this]
      have e : p + 1 + m = p + (m + 1) := by omega
      rw [e]

theorem recover_misses (data : List Nat) : ∀ n p acc, data.length - p ≤ n →
    (∀ m, 1 ≤ m → p + m ≤ data.length → accAfter data p acc m ≠ 2) →
    recover ⟨data, p, false⟩ acc = none := by
  intro n
  induction n with
  | zero =>
    intro p acc hn _
    exact recover_end (by omega) acc
  | succ n ih =>
    intro p acc hn hno
    by_cases hlt : p < data.length
    · rw [recover_step hlt]
      rw [if_neg (by rw [← accAfter_one hlt acc]; exact hno 1 (by omega) (by omega))]
      exact ih (p + 1) _ (by omega) (fun m h1 h2 => by
        rw [← accAfter_succ hlt]
        exact hno (m + 1) (by omega) (by omega))
    · exact recover_end hlt acc

/-- C4: in the restream engine, when a newly read 4-byte length is 0 or
exceeds `0x00FFFFFF`, the engine reads one byte at a time, updating the
32-bit accumulator as `(accumulator << 8) | new_byte`, until the
accumulator equals exactly 2, and resumes the main loop at exactly that
point with the accumulator (necessarily 2) as the current length; if no
such accumulator value occurs before end-of-input, the engine returns
without crashing. -/
theorem C4_anomaly_recovery (data : List Nat) (p acc : Nat) :
    (∀ m, 1 ≤ m → p + m ≤ data.length → accAfter data p acc m = 2 →
      (∀ m2, 1 ≤ m2 → m2 < m → accAfter data p acc m2 ≠ 2) →
      recover ⟨data, p, false⟩ acc = some ⟨data, p + m, false⟩)
    ∧ ((∀ m, 1 ≤ m → p + m ≤ data.length → accAfter data p acc m ≠ 2) →
      recover ⟨data, p, false⟩ acc = none)
    ∧ (∀ fuel st0 nal copied st1 sz st2, st0.eof = false →
        copyN st0 nal = (copied, st1) → get4Bytes st1 = (some sz, st2) →
        (sz = 0 ∨ 16777215 < sz) →
        restreamLoop (fuel + 1) st0 nal =
          (match recover st2 sz with
           | none => some (startCode ++ copied)
           | some st3 => (restreamLoop fuel st3 2).map (fun out => startCode ++ copied ++ out))) := by
  refine ⟨fun m h1 h2 h3 h4 => recover_finds data m p acc h1 h2 h3 h4,
    fun hno => recover_misses data (data.length - p) p acc (le_refl _) hno,
    fun fuel st0 nal copied st1 sz st2 he hC hG hAnom => ?_⟩
  rw [restreamLoop]
  rw [he]
  dsimp only
  rw [hC]
  dsimp only
  rw [hG]
  dsimp only
  rw [if_pos hAnom]
  simp

/-- Witness for C4 at a concrete input: anomalous size 0 followed by the
bytes `00 02`, recovered after reading both. -/
theorem C4_anomaly_recovery_witness :
    ((1 : Nat) ≤ 2) ∧ 0 + 2 ≤ ([0, 2] : List Nat).length ∧
      accAfter [0, 2] 0 0 2 = 2 ∧
      recover ⟨[0, 2], 0, false⟩ 0 = some ⟨[0, 2], 0 + 2, false⟩ :=
  ⟨by decide, by decide, by decide,
    (C4_anomaly_recovery [0, 2] 0 0).1 2 (by decide) (by decide) (by decide)
      (fun m2 h1 h2 => by
        have hm : m2 = 1 := by omega
        subst hm
        decide)⟩

theorem bAt_lt (data : List Nat) (j : Nat) : bAt data j < 256 :=
  Nat.mod_lt _ (by norm_num)

theorem mkWord_eq (a b c d : Nat) (hb : b < 256) (hc : c < 256) (hd : d < 256) :
    mkWord a b c d = ((a * 256 + b) * 256 + c) * 256 + d := by
  unfold mkWord
  rw [Nat.shiftLeft_eq a 24, Nat.shiftLeft_eq b 16, Nat.shiftLeft_eq c 8]
  rw [Nat.mul_comm a (2 ^ 24), Nat.mul_comm b (2 ^ 16), Nat.mul_comm c (2 ^ 8)]
  rw [← Nat.mul_add_lt_is_or (show 2 ^ 16 * b < 2 ^ 24 by omega) a]
  rw [show 2 ^ 24 * a + 2 ^ 16 * b = 2 ^ 16 * (2 ^ 8 * a + b) by ring]
  rw [← Nat.mul_add_lt_is_or (show 2 ^ 8 * c < 2 ^ 16 by omega) (2 ^ 8 * a + b)]
  rw [show 2 ^ 16 * (2 ^ 8 * a + b) + 2 ^ 8 * c =
    2 ^ 8 * (2 ^ 8 * (2 ^ 8 * a + b) + c) by ring]
  rw [← Nat.mul_add_lt_is_or (show d < 2 ^ 8 by omega) (2 ^ 8 * (2 ^ 8 * a + b) + c)]
  ring

theorem extract_hi (a b c d : Nat) (ha : a < 256) (hb : b < 256) (hc : c < 256)
    (hd : d < 256) : ((mkWord a b c d) >>> 24) &&& 255 = a := by
  rw [mkWord_eq a b c d hb hc hd, Nat.shiftRight_eq_div_pow]
  have hdiv : (((a * 256 + b) * 256 + c) * 256 + d) / 2 ^ 24 = a := by omega
  rw [hdiv, show (255 : Nat) = 2 ^ 8 - 1 by norm_num, Nat.and_pow_two_sub_one_eq_mod,
    Nat.mod_eq_of_lt ha]

theorem and_hi_mask (a R : Nat) (hR : R < 2 ^ 32) (hR8 : R % 2 ^ 8 = 0) :
    (2 ^ 32 * a + R) &&& 4294967040 = R := by
  have hmask : (4294967040 : Nat) = (2 ^ 24 - 1) <<< 8 := by
    rw [Nat.shiftLeft_eq]
    norm_num
  apply Nat.eq_of_testBit_eq
  intro i
  rw [Nat.testBit_and, hmask, Nat.testBit_shiftLeft, Nat.testBit_mul_pow_two_add a hR i,
    Nat.testBit_two_pow_sub_one]
  rcases Nat.lt_or_ge i 8 with h8 | h8
  · have hfalse : R.testBit i = false := by
      obtain ⟨R2, rfl⟩ : ∃ R2, R = 2 ^ 8 * R2 := ⟨R / 2 ^ 8, by omega⟩
      rw [Nat.testBit_mul_pow_two]
      simp [show ¬ (8 ≤ i) by omega]
    rw [if_pos (show i < 32 by omega), hfalse]
    simp [show ¬ (8 ≤ i) by omega]
  · rcases Nat.lt_or_ge i 32 with h32 | h32
    · rw [if_pos h32]
      simp [show 8 ≤ i by omega, show i - 8 < 24 by omega]
    · rw [if_neg (show ¬ i < 32 by omega)]
      have hfalse : R.testBit i = false :=
        Nat.testBit_lt_two_pow (lt_of_lt_of_le hR (Nat.pow_le_pow_right (by norm_num) h32))
      rw [hfalse]
      simp [show ¬ (i - 8 < 24) by omega]

theorem shift_window (a b c d x : Nat) (hb : b < 256) (hc : c < 256) (hd : d < 256)
    (hx : x < 256) :
    ((mkWord a b c d <<< 8) &&& 4294967040) ||| x = mkWord b c d x := by
  rw [mkWord_eq a b c d hb hc hd, Nat.shiftLeft_eq]
  rw [show (((a * 256 + b) * 256 + c) * 256 + d) * 2 ^ 8 =
    2 ^ 32 * a + (2 ^ 24 * b + 2 ^ 16 * c + 2 ^ 8 * d) by ring]
  rw [and_hi_mask a _ (by omega) (by omega)]
  rw [mkWord_eq b c d x hc hd hx]
  rw [show (2 ^ 24 * b + 2 ^ 16 * c + 2 ^ 8 * d : Nat) =
    2 ^ 8 * (2 ^ 16 * b + 2 ^ 8 * c + d) by ring]
  rw [← Nat.mul_add_lt_is_or (show x < 2 ^ 8 by omega) (2 ^ 16 * b + 2 ^ 8 * c + d)]
  ring

theorem window_shift_first (data : List Nat) (j : Nat) :
    ((wordAt data j <<< 8) &&& 4294967040) ||| ((wordAt data (j + 4) >>> 24) &&& 255) =
      wordAt data (j + 1) := by
  unfold wordAt
  rw [extract_hi _ _ _ _ (bAt_lt data (j + 4)) (bAt_lt data (j + 5)) (bAt_lt data (j + 6))
    (bAt_lt data (j + 7))]
  rw [shift_window _ _ _ _ _ (bAt_lt data (j + 1)) (bAt_lt data (j + 2))
    (bAt_lt data (j + 3)) (bAt_lt data (j + 4))]

theorem window_shift_next (data : List Nat) (j : Nat) :
    ((wordAt data (j + 4) <<< 8) &&& 4294967040) ||| bAt data (j + 8) =
      wordAt data (j + 5) := by
  unfold wordAt
  rw [shift_window _ _ _ _ _ (bAt_lt data (j + 5)) (bAt_lt data (j + 6))
    (bAt_lt data (j + 7)) (bAt_lt data (j + 8))]

/-- The outcome of the signature classifier (djifix.c:111-167): a fatal
error, a Path-A classification (`repair1`, with the stream positioned
after the `fseek` past the initial `ftyp` atom), or a Path-B
classification (`repair2`, carrying `next4Bytes` as
`repairType2Second4Bytes`). -/
inductive ClassifyOut where
  | fatal : ClassifyOut
  | repair1 : ByteSrc → ClassifyOut
  | repair2 : Nat → ByteSrc → ClassifyOut
deriving DecidableEq, Repr

/-- The file offset the classifier prints as `ftell(inputFID) - 8` when
a signature is found after leading junk (djifix.c:124 and :128). -/
def reportedPos : ClassifyOut → Option Nat
  | .fatal => none
  | .repair1 st => some (st.pos - 8)
  | .repair2 _ st => some (st.pos - 8)

/-- Embeds the signature-classifier loop of `main` (djifix.c:117-166),
with explicit fuel (`none` = fuel ran out).  State: the sliding window
`(first4Bytes, next4Bytes)` and the stream, whose cursor sits just past
the window.  The `amAtStartOfFile` flag of the C code only gates
diagnostic printing and carries no other state, so it is not modelled.
Branches, in the C order: `ftyp` tag in `next4Bytes` (fatal if the
preceding size word is below 8, else seek past the atom);
`first4Bytes == 0x00000002` (Path B); filler word `0x00000000` /
`0xFFFFFFFF` (discard one word, read a fresh one); otherwise garbage
(shift the window one byte). -/
def classifyLoop : Nat → Nat → Nat → ByteSrc → Option ClassifyOut
  | 0, _, _, _ => none
  | fuel + 1, first4, next4, st =>
    if next4 = fourccFtyp then
      if first4 < 8 then some .fatal
      else some (.repair1 (skipForward st (first4 - 8)))
    else if first4 = 2 then some (.repair2 next4 st)
    else if first4 = 0 ∨ first4 = 4294967295 then
      match get4Bytes st with
      | (none, _) => some .fatal
      | (some w, st1) => classifyLoop fuel next4 w st1
    else
      match get1Byte st with
      | (none, _) => some .fatal
      | (some c, st1) =>
        classifyLoop fuel (((first4 <<< 8) &&& 4294967040) ||| ((next4 >>> 24) &&& 255))
          (((next4 <<< 8) &&& 4294967040) ||| c) st1

/-- Embeds the classifier entry (djifix.c:111-114 plus the loop): read
the first two words of the file and run the loop.  The fuel
`data.length + 1` is sufficient because every loop iteration that
continues consumes at least one input byte. -/
def classify (data : List Nat) : Option ClassifyOut :=
  match get4Bytes ⟨data, 0, false⟩ with
  | (none, _) => some .fatal
  | (some first4, st1) =>
    match get4Bytes st1 with
    | (none, _) => some .fatal
    | (some next4, st2) => classifyLoop (data.length + 1) first4 next4 st2

/-- A signature in the classifier's sense at window offset `j`: the word
at `j + 4` is the wrapper tag (the branch taken regardless of whether
the preceding size word is plausible), or the word at `j` is
`0x00000002`. -/
def sigAt (data : List Nat) (j : Nat) : Prop :=
  wordAt data (j + 4) = fourccFtyp ∨ wordAt data j = 2

instance (data : List Nat) (j : Nat) : Decidable (sigAt data j) := by
  unfold sigAt
  infer_instance

/-- The classifier's window advance from offset `j` when no signature is
present there: 4 bytes over a filler word, 1 byte otherwise. -/
def stepOff (data : List Nat) (j : Nat) : Nat :=
  if wordAt data j = 0 ∨ wordAt data j = 4294967295 then j + 4 else j + 1

/-- The window offset after `n` advances starting from offset `j`. -/
def iterFrom (data : List Nat) (j : Nat) : Nat → Nat
  | 0 => j
  | n + 1 => iterFrom data (stepOff data j) n

/-- The outcome the classifier produces when its window stops at a
signature at offset `k`, read off from the branch structure of
djifix.c:118-130. -/
def stopAt (data : List Nat) (k : Nat) : Option ClassifyOut :=
  if wordAt data (k + 4) = fourccFtyp then
    if wordAt data k < 8 then some .fatal
    else some (.repair1 ⟨data, k + 8 + (wordAt data k - 8), false⟩)
  else some (.repair2 (wordAt data (k + 4)) ⟨data, k + 8, false⟩)

theorem stepOff_ge (data : List Nat) (j : Nat) : j + 1 ≤ stepOff data j := by
  unfold stepOff
  split <;> omega

theorem iterFrom_ge (data : List Nat) : ∀ n j, j + n ≤ iterFrom data j n := by
  intro n
  induction n with
  | zero => intro j; simp [iterFrom]
  | succ n ih =>
    intro j
    rw [iterFrom]
    have h1 := stepOff_ge data j
    have h2 := ih (stepOff data j)
    omega

theorem classifyLoop_reach (data : List Nat) : ∀ n j fuel, n + 1 ≤ fuel →
    (∀ m, m < n → ¬ sigAt data (iterFrom data j m)) →
    sigAt data (iterFrom data j n) →
    iterFrom data j n + 8 ≤ data.length →
    classifyLoop fuel (wordAt data j) (wordAt data (j + 4)) ⟨data, j + 8, false⟩ =
      stopAt data (iterFrom data j n) := by
  intro n
  induction n with
  | zero =>
    intro j fuel hfuel _ hsig hlen
    obtain ⟨f, rfl⟩ : ∃ f, fuel = f + 1 := ⟨fuel - 1, by omega⟩
    rw [classifyLoop, iterFrom] at *
    rw [stopAt]
    by_cases hft : wordAt data (j + 4) = fourccFtyp
    · rw [if_pos hft, if_pos hft]
      by_cases hsz : wordAt data j < 8
      · rw [if_pos hsz, if_pos hsz]
      · rw [if_neg hsz, if_neg hsz]
        simp [skipForward]
    · have h2 : wordAt data j = 2 := by
        rcases hsig with h | h
        · exact absurd h hft
        · exact h
      rw [if_neg hft, if_pos h2, if_neg hft]
  | succ n ih =>
    intro j fuel hfuel hno hsig hlen
    obtain ⟨f, rfl⟩ : ∃ f, fuel = f + 1 := ⟨fuel - 1, by omega⟩
    have hnosig : ¬ sigAt data j := by
      have := hno 0 (by omega)
      rw [iterFrom] at this
      exact this
    have hft : wordAt data (j + 4) ≠ fourccFtyp := fun h => hnosig (Or.inl h)
    have h2 : wordAt data j ≠ 2 := fun h => hnosig (Or.inr h)
    rw [classifyLoop, if_neg hft, if_neg h2]
    have hiter : iterFrom data j (n + 1) = iterFrom data (stepOff data j) n := by
      rw [iterFrom]
    by_cases hfil : wordAt data j = 0 ∨ wordAt data j = 4294967295
    · have hstep : stepOff data j = j + 4 := by
        rw [stepOff, if_pos hfil]
      have hk4 : j + 4 ≤ iterFrom data j (n + 1) := by
        rw [hiter, hstep]
        have := iterFrom_ge data n (j + 4)
        omega
      have hread : get4Bytes ⟨data, j + 8, false⟩ =
          (some (wordAt data (j + 8)), ⟨data, j + 12, false⟩) :=
        get4Bytes_ok (by omega)
      rw [if_pos hfil, hread]
      dsimp only
      have hrec := ih (j + 4) f (by omega)
        (fun m hm => by
          have := hno (m + 1) (by omega)
          rw [iterFrom, hstep] at this
          exact this)
        (by rw [hiter, hstep] at hsig; exact hsig)
        (by rw [hiter, hstep] at hlen; exact hlen)
      rw [hiter, hstep]
      rw [show j + 4 + 4 = j + 8 from by omega, show j + 4 + 8 = j + 12 from by omega] at hrec
      exact hrec
    · have hstep : stepOff data j = j + 1 := by
        rw [stepOff, if_neg hfil]
      have hk1 : j + 1 ≤ iterFrom data j (n + 1) := by
        rw [hiter, hstep]
        have := iterFrom_ge data n (j + 1)
        omega
      have hread : get1Byte ⟨data, j + 8, false⟩ =
          (some (bAt data (j + 8)), ⟨data, j + 9, false⟩) :=
        get1Byte_pos_ok (by omega)
      rw [if_neg hfil, hread]
      dsimp only
      have hrec := ih (j + 1) f (by omega)
        (fun m hm => by
          have := hno (m + 1) (by omega)
          rw [iterFrom, hstep] at this
          exact this)
        (by rw [hiter, hstep] at hsig; exact hsig)
        (by rw [hiter, hstep] at hlen; exact hlen)
      rw [window_shift_first data j, window_shift_next data j]
      rw [hiter, hstep]
      rw [show j + 1 + 4 = j + 5 from by omega, show j + 1 + 8 = j + 9 from by omega] at hrec
      exact hrec

/-- C3 (amended): the classifier's window advances 4 bytes over a filler
word and 1 byte over a garbage word; it stops at the first offset `k`
VISITED by this stepping discipline that bears a signature (so a 4-byte
filler skip can jump over a signature at an intermediate unaligned
offset, which is then never found).  At such a `k`, a `0x00000002`
signature yields Path B with the true offset `k` as the reported
position, while a wrapper-tag signature with plausible size `s` is
matched with the tag at its true offset `k + 4` but reported (after the
seek past the atom) as `k + s - 8`. -/
theorem C3_classifier_amended (data : List Nat) (n : Nat)
    (hno : ∀ m, m < n → ¬ sigAt data (iterFrom data 0 m))
    (hsig : sigAt data (iterFrom data 0 n))
    (hlen : iterFrom data 0 n + 8 ≤ data.length) :
    classify data = stopAt data (iterFrom data 0 n)
    ∧ (wordAt data (iterFrom data 0 n + 4) ≠ fourccFtyp →
        classify data = some (.repair2 (wordAt data (iterFrom data 0 n + 4))
          ⟨data, iterFrom data 0 n + 8, false⟩) ∧
        reportedPos (.repair2 (wordAt data (iterFrom data 0 n + 4))
          ⟨data, iterFrom data 0 n + 8, false⟩) = some (iterFrom data 0 n))
    ∧ (wordAt data (iterFrom data 0 n + 4) = fourccFtyp →
        8 ≤ wordAt data (iterFrom data 0 n) →
        classify data = some (.repair1
          ⟨data, iterFrom data 0 n + 8 + (wordAt data (iterFrom data 0 n) - 8), false⟩) ∧
        reportedPos (.repair1
          ⟨data, iterFrom data 0 n + 8 + (wordAt data (iterFrom data 0 n) - 8), false⟩) =
          some (iterFrom data 0 n + wordAt data (iterFrom data 0 n) - 8)) := by
  have hk0 : 0 + n ≤ iterFrom data 0 n := iterFrom_ge data n 0
  have hcl : classify data = stopAt data (iterFrom data 0 n) := by
    rw [classify]
    rw [get4Bytes_ok (p := 0) (by omega)]
    dsimp only
    rw [get4Bytes_ok (p := 0 + 4) (by omega)]
    dsimp only
    have hreach := classifyLoop_reach data n 0 (data.length + 1) (by omega) hno hsig hlen
    rw [show (0 : Nat) + 4 + 4 = 0 + 8 from by omega]
    exact hreach
  refine ⟨hcl, fun hft => ?_, fun hft hsz => ?_⟩
  · rw [stopAt, if_neg hft] at hcl
    refine ⟨hcl, ?_⟩
    rw [reportedPos]
    simp
  · rw [stopAt, if_pos hft, if_neg (by omega)] at hcl
    refine ⟨hcl, ?_⟩
    rw [reportedPos]
    simp
    omega

/-- Concrete input for the C3 witness: 40 bytes of zero filler, then a
plausible size word (12), then the wrapper tag, then the atom body. -/
def zeroFillInput : List Nat :=
  List.replicate 40 0 ++ [0, 0, 0, 12, 102, 116, 121, 112, 1, 2, 3, 4]

/-- Witness for the amended C3: on `zeroFillInput` the classifier does
10 filler skips, stops with its window at offset 40, and classifies
Path A from the size/tag pair at offsets 40/44. -/
theorem C3_classifier_amended_witness :
    (∀ m, m < 10 → ¬ sigAt zeroFillInput (iterFrom zeroFillInput 0 m)) ∧
    sigAt zeroFillInput (iterFrom zeroFillInput 0 10) ∧
    iterFrom zeroFillInput 0 10 + 8 ≤ zeroFillInput.length ∧
    (classify zeroFillInput = stopAt zeroFillInput (iterFrom zeroFillInput 0 10)
    ∧ (wordAt zeroFillInput (iterFrom zeroFillInput 0 10 + 4) ≠ fourccFtyp →
        classify zeroFillInput = some (.repair2
          (wordAt zeroFillInput (iterFrom zeroFillInput 0 10 + 4))
          ⟨zeroFillInput, iterFrom zeroFillInput 0 10 + 8, false⟩) ∧
        reportedPos (.repair2 (wordAt zeroFillInput (iterFrom zeroFillInput 0 10 + 4))
          ⟨zeroFillInput, iterFrom zeroFillInput 0 10 + 8, false⟩) =
          some (iterFrom zeroFillInput 0 10))
    ∧ (wordAt zeroFillInput (iterFrom zeroFillInput 0 10 + 4) = fourccFtyp →
        8 ≤ wordAt zeroFillInput (iterFrom zeroFillInput 0 10) →
        classify zeroFillInput = some (.repair1 ⟨zeroFillInput,
          iterFrom zeroFillInput 0 10 + 8 +
            (wordAt zeroFillInput (iterFrom zeroFillInput 0 10) - 8), false⟩) ∧
        reportedPos (.repair1 ⟨zeroFillInput, iterFrom zeroFillInput 0 10 + 8 +
            (wordAt zeroFillInput (iterFrom zeroFillInput 0 10) - 8), false⟩) =
          some (iterFrom zeroFillInput 0 10 +
            wordAt zeroFillInput (iterFrom zeroFillInput 0 10) - 8))) :=
  ⟨by decide, by decide, by decide,
    C3_classifier_amended zeroFillInput 10 (by decide) (by decide) (by decide)⟩

/-- C3 counterexample.  First input: `00 00 00 00 02 00 00 00 02 00 00
02` has its first valid signature (the word `0x00000002`) at offset 1,
but the classifier's 4-byte filler skip jumps from offset 0 to offset 4
and the run ends fatally — it does not advance to offset 1.  Second
input: a garbage byte, then size 16, then the wrapper tag at its true
offset 5; the classifier matches it but reports position 9
(`ftell - 8` after seeking past the atom), not the signature offset 1
nor the tag offset 5. -/
theorem C3_counterexample :
    sigAt [0, 0, 0, 0, 2, 0, 0, 0, 2, 0, 0, 2] 1 ∧
    ¬ sigAt [0, 0, 0, 0, 2, 0, 0, 0, 2, 0, 0, 2] 0 ∧
    classify [0, 0, 0, 0, 2, 0, 0, 0, 2, 0, 0, 2] = some .fatal ∧
    classify [9, 0, 0, 0, 16, 102, 116, 121, 112, 1, 2, 3, 4, 5, 6, 7, 8] =
      some (.repair1 ⟨[9, 0, 0, 0, 16, 102, 116, 121, 112, 1, 2, 3, 4, 5, 6, 7, 8],
        17, false⟩) ∧
    reportedPos (.repair1 ⟨[9, 0, 0, 0, 16, 102, 116, 121, 112, 1, 2, 3, 4, 5, 6, 7, 8],
      17, false⟩) = some 9 ∧
    (9 : Nat) ≠ 1 ∧ (9 : Nat) ≠ 5 := by
  decide

/-- Embeds one repetition attempt of the nested triple walk, the body of
the `while (1)` at djifix.c:214-224 after `curPos` is noted: skip the
current nested `ftyp` payload, probe `moov`, skip its payload, probe
`mdat`, probe `ftyp`.  (The two forward `fseek`s cannot fail on a
regular file, so their C failure branches are unreachable here.)
`none` is the `break`. -/
def walkStep (st : ByteSrc) (numBytesToSkip : Nat) : Option (ByteSrc × Nat) :=
  let st1 := skipForward st numBytesToSkip
  match checkAtom st1 fourccMoov with
  | (none, _) => none
  | (some nbtsMoov, st2) =>
    let st3 := skipForward st2 nbtsMoov
    match checkAtom st3 fourccMdat with
    | (none, _) => none
    | (some _, st4) =>
      match checkAtom st4 fourccFtyp with
      | (none, _) => none
      | (some nbts2, st5) => some (st5, nbts2)

/-- Embeds the nested-walk loop (djifix.c:214-224) with fuel: each
iteration first notes `curPos = ftell` and, when a step breaks, the
result is that `curPos` together with the current
`numBytesToSkip`. -/
def walkLoop : Nat → ByteSrc → Nat → Option (Nat × Nat)
  | 0, _, _ => none
  | fuel + 1, st, nbts =>
    match walkStep st nbts with
    | none => some (st.pos, nbts)
    | some r => walkLoop fuel r.1 r.2

/-- Outcome of the nested-`ftyp` detection inside `mdat`
(djifix.c:207-238): `found ftypSize st` with the stream restored by
`fseek(curPos, SEEK_SET)`, or `noFtyp` with the stream wherever the
failed probe left it. -/
inductive NestedOut where
  | found : Nat → ByteSrc → NestedOut
  | noFtyp : ByteSrc → NestedOut
deriving DecidableEq, Repr

/-- Embeds djifix.c:207-228: probe for `ftyp` inside the `mdat` data;
on success run the repetition walk, restore the cursor to the final
`curPos`, and record `ftypSize = numBytesToSkip + 8`. -/
def runNestedFtyp (fuel : Nat) (st : ByteSrc) : Option NestedOut :=
  match checkAtom st fourccFtyp with
  | (none, st2) => some (.noFtyp st2)
  | (some nbts, st1) =>
    (walkLoop fuel st1 nbts).map fun r => .found (r.2 + 8) ⟨st.data, r.1, false⟩

/-- The state after `k` successful repetitions of the nested walk,
starting from the state right after the first nested `ftyp` match. -/
def walkChain (st : ByteSrc) (nbts : Nat) : Nat → Option (ByteSrc × Nat)
  | 0 => some (st, nbts)
  | k + 1 =>
    match walkStep st nbts with
    | none => none
    | some r => walkChain r.1 r.2 k

/-- C5 (amended): when exactly `k` repetitions of the nested
wrapper/metadata/media-data triple validate, the walker restores the
input cursor to immediately after the INNERMOST (most recent)
successful nested header match — not the first — and the size used for
output synthesis is that of the same innermost match, so the two stay
consistent. -/
theorem C5_nested_walk_amended (k : Nat) : ∀ fuel st1 nbts stk nbk,
    walkChain st1 nbts k = some (stk, nbk) →
    walkStep stk nbk = none →
    k < fuel →
    walkLoop fuel st1 nbts = some (stk.pos, nbk)
    ∧ (∀ st0, checkAtom st0 fourccFtyp = (some nbts, st1) →
        runNestedFtyp fuel st0 = some (.found (nbk + 8) ⟨st0.data, stk.pos, false⟩)) := by
  induction k with
  | zero =>
    intro fuel st1 nbts stk nbk hchain hfail hfuel
    obtain ⟨f, rfl⟩ : ∃ f, fuel = f + 1 := ⟨fuel - 1, by omega⟩
    rw [walkChain] at hchain
    simp only [Option.some.injEq, Prod.mk.injEq] at hchain
    obtain ⟨rfl, rfl⟩ := hchain
    have hloop : walkLoop (f + 1) st1 nbts = some (st1.pos, nbts) := by
      rw [walkLoop, hfail]
    refine ⟨hloop, fun st0 hchk => ?_⟩
    rw [runNestedFtyp, hchk]
    dsimp only
    rw [hloop]
    rfl
  | succ k ih =>
    intro fuel st1 nbts stk nbk hchain hfail hfuel
    obtain ⟨f, rfl⟩ : ∃ f, fuel = f + 1 := ⟨fuel - 1, by omega⟩
    rw [walkChain] at hchain
    match hstep : walkStep st1 nbts with
    | none => rw [hstep] at hchain; exact absurd hchain (by simp)
    | some r =>
      rw [hstep] at hchain
      dsimp only at hchain
      have hrec := ih f r.1 r.2 stk nbk hchain hfail (by omega)
      have hloop : walkLoop (f + 1) st1 nbts = some (stk.pos, nbk) := by
        rw [walkLoop, hstep]
        exact hrec.1
      refine ⟨hloop, fun st0 hchk => ?_⟩
      rw [runNestedFtyp, hchk]
      dsimp only
      rw [hloop]
      rfl

/-- Concrete input fragment (starting where the probe at djifix.c:207
begins) in which exactly one repetition of the nested triple validates:
first nested `ftyp` (size 12), `moov` (size 8), `mdat` (size 8), second
nested `ftyp` (size 9), one payload byte. -/
def nestedTwiceInput : List Nat :=
  [0, 0, 0, 12, 102, 116, 121, 112, 1, 2, 3, 4,
   0, 0, 0, 8, 109, 111, 111, 118,
   0, 0, 0, 8, 109, 100, 97, 116,
   0, 0, 0, 9, 102, 116, 121, 112,
   5]

/-- C5 counterexample: on `nestedTwiceInput` the walker finishes with
the cursor at offset 36 — immediately after the SECOND (innermost)
nested header match — and size 9, not at offset 8 (immediately after
the first match) as the claim states. -/
theorem C5_counterexample :
    runNestedFtyp 5 ⟨nestedTwiceInput, 0, false⟩ =
      some (.found 9 ⟨nestedTwiceInput, 36, false⟩) ∧ (36 : Nat) ≠ 8 := by
  decide

/-- Witness for the amended C5 on the same concrete input
(`k = 1` repetition). -/
theorem C5_nested_walk_amended_witness :
    walkChain ⟨nestedTwiceInput, 8, false⟩ 4 1 = some (⟨nestedTwiceInput, 36, false⟩, 1) ∧
    walkStep ⟨nestedTwiceInput, 36, false⟩ 1 = none ∧ (1 : Nat) < 5 ∧
    (walkLoop 5 ⟨nestedTwiceInput, 8, false⟩ 4 =
      some ((⟨nestedTwiceInput, 36, false⟩ : ByteSrc).pos, 1)
    ∧ (∀ st0, checkAtom st0 fourccFtyp = (some 4, ⟨nestedTwiceInput, 8, false⟩) →
        runNestedFtyp 5 st0 = some (.found (1 + 8)
          ⟨st0.data, (⟨nestedTwiceInput, 36, false⟩ : ByteSrc).pos, false⟩))) :=
  ⟨by decide, by decide, by decide,
    C5_nested_walk_amended 1 5 ⟨nestedTwiceInput, 8, false⟩ 4
      ⟨nestedTwiceInput, 36, false⟩ 1 (by decide) (by decide) (by decide)⟩

theorem get4Bytes_fail2 {data : List Nat} {p : Nat} (h : ¬ p < data.length) :
    get4Bytes ⟨data, p, false⟩ = (none, ⟨data, p, true⟩) := by
  simp [get4Bytes, get1Byte_pos_end h]

/-- Outcome of the fallback `0x00000002` search of `main`
(djifix.c:246-269): the marker word found (carrying the following word
as `repairType2Second4Bytes`), or not found (the run then aborts). -/
inductive SearchOut where
  | found : Nat → ByteSrc → SearchOut
  | noMarker : SearchOut
deriving DecidableEq, Repr

/-- Embeds the fallback `0x00000002` search loop (djifix.c:252-263)
with fuel.  Note that the loop top re-reads BOTH `first4Bytes` and
`next4Bytes` on every iteration, and the `else` arm reads one further
word, so consecutive iterations examine words 12 bytes apart. -/
def search02 : Nat → ByteSrc → Option SearchOut
  | 0, _ => none
  | fuel + 1, st =>
    match get4Bytes st with
    | (none, _) => some .noMarker
    | (some first4, st1) =>
      match get4Bytes st1 with
      | (none, _) => some .noMarker
      | (some next4, st2) =>
        if first4 = 2 then some (.found next4 st2)
        else
          match get4Bytes st2 with
          | (none, _) => some .noMarker
          | (some _, st3) => search02 fuel st3

/-- C10 (amended): the fallback `0x00000002` search advances its window
12 bytes per step (it reads three words per iteration and examines only
the first), not 4: starting at offset `s` it examines exactly the words
at offsets `s + 12·i`, finds the marker only there, and an occurrence of
`0x00000002` at any other offset — including offsets congruent to `s`
modulo 4 — is never found, in which case the run aborts as fatal. -/
theorem C10_search_stride12 (data : List Nat) :
    (∀ n s fuel, (∀ i, i < n → wordAt data (s + 12 * i) ≠ 2) →
      wordAt data (s + 12 * n) = 2 → s + 12 * n + 8 ≤ data.length → n < fuel →
      search02 fuel ⟨data, s, false⟩ =
        some (.found (wordAt data (s + 12 * n + 4)) ⟨data, s + 12 * n + 8, false⟩))
    ∧ (∀ fuel s, (∀ i, s + 12 * i + 8 ≤ data.length → wordAt data (s + 12 * i) ≠ 2) →
        data.length < s + 12 * fuel → 1 ≤ fuel →
        search02 fuel ⟨data, s, false⟩ = some .noMarker) := by
  constructor
  · intro n
    induction n with
    | zero =>
      intro s fuel _ hw hlen hfuel
      obtain ⟨f, rfl⟩ : ∃ f, fuel = f + 1 := ⟨fuel - 1, by omega⟩
      rw [search02]
      rw [get4Bytes_ok (p := s) (by omega)]
      dsimp only
      rw [get4Bytes_ok (p := s + 4) (by omega)]
      dsimp only
      rw [if_pos (by simpa using hw)]
    | succ n ih =>
      intro s fuel hno hw hlen hfuel
      obtain ⟨f, rfl⟩ : ∃ f, fuel = f + 1 := ⟨fuel - 1, by omega⟩
      rw [search02]
      rw [get4Bytes_ok (p := s) (by omega)]
      dsimp only
      rw [get4Bytes_ok (p := s + 4) (by omega)]
      dsimp only
      rw [if_neg (by simpa using hno 0 (by omega))]
      rw [get4Bytes_ok (p := s + 4 + 4) (by omega)]
      dsimp only
      have hrec := ih (s + 12) f
        (fun i hi => by
          have := hno (i + 1) (by omega)
          simpa [show s + 12 * (i + 1) = s + 12 + 12 * i from by omega] using this)
        (by simpa [show s + 12 * (n + 1) = s + 12 + 12 * n from by omega] using hw)
        (by omega) (by omega)
      rw [show s + 4 + 4 + 4 = s + 12 from by omega, hrec]
      simp only [show s + 12 + 12 * n = s + 12 * (n + 1) from by omega]
  · intro fuel
    induction fuel with
    | zero => omega
    | succ f ih =>
      intro s hno hlen _
      rw [search02]
      by_cases h0 : s < data.length
      · by_cases h4 : s + 4 ≤ data.length
        · by_cases h8 : s + 4 + 4 ≤ data.length
          · rw [get4Bytes_ok (p := s) (by omega)]
            dsimp only
            rw [get4Bytes_ok (p := s + 4) (by omega)]
            dsimp only
            rw [if_neg (by simpa using hno 0 (by omega))]
            by_cases h12 : s + 4 + 4 + 4 ≤ data.length
            · rw [get4Bytes_ok (p := s + 4 + 4) (by omega)]
              dsimp only
              have hf1 : 1 ≤ f := by omega
              have hshift : ∀ i, s + 12 + 12 * i + 8 ≤ data.length →
                  wordAt data (s + 12 + 12 * i) ≠ 2 := by
                intro i hi
                have h2 := hno (i + 1) (by omega)
                rw [show s + 12 + 12 * i = s + 12 * (i + 1) from by omega]
                exact h2
              have := ih (s + 12) hshift (by omega) hf1
              rw [show s + 4 + 4 + 4 = s + 12 from by omega]
              exact this
            · rw [get4Bytes_fail (p := s + 4 + 4) (by omega) (by omega)]
          · rw [get4Bytes_ok (p := s) (by omega)]
            dsimp only
            rw [get4Bytes_fail (p := s + 4) (by omega) (by omega)]
        · rw [get4Bytes_fail (p := s) (by omega) (by omega)]
      · rw [get4Bytes_fail2 (by omega)]

/-- C10 counterexample: starting at offset 0, the marker word
`0x00000002` occurs at offset 4 — congruent to the scan start modulo 4 —
yet the search never finds it (the first iteration examines offset 0,
reads the words at 4 and 8 without testing them, and the next iteration
runs out of input), so the run ends with `noMarker`. -/
theorem C10_counterexample :
    wordAt [0, 0, 0, 9, 0, 0, 0, 2, 0, 0, 0, 2] 4 = 2 ∧ (4 % 4 = 0 % 4) ∧
    search02 13 ⟨[0, 0, 0, 9, 0, 0, 0, 2, 0, 0, 0, 2], 0, false⟩ = some .noMarker := by
  decide

/-- Witness for the amended C10: a marker at offset 12 (one full
12-byte stride from the start) is found with the following word carried
out. -/
theorem C10_search_stride12_witness :
    (∀ i, i < 1 → wordAt [0, 0, 0, 9, 1, 1, 1, 1, 2, 2, 2, 2, 0, 0, 0, 2, 9, 9, 9, 9]
      (0 + 12 * i) ≠ 2) ∧
    wordAt [0, 0, 0, 9, 1, 1, 1, 1, 2, 2, 2, 2, 0, 0, 0, 2, 9, 9, 9, 9] (0 + 12 * 1) = 2 ∧
    0 + 12 * 1 + 8 ≤ ([0, 0, 0, 9, 1, 1, 1, 1, 2, 2, 2, 2, 0, 0, 0, 2, 9, 9, 9, 9] :
      List Nat).length ∧ (1 : Nat) < 3 ∧
    search02 3 ⟨[0, 0, 0, 9, 1, 1, 1, 1, 2, 2, 2, 2, 0, 0, 0, 2, 9, 9, 9, 9], 0, false⟩ =
      some (.found (wordAt [0, 0, 0, 9, 1, 1, 1, 1, 2, 2, 2, 2, 0, 0, 0, 2, 9, 9, 9, 9]
        (0 + 12 * 1 + 4))
        ⟨[0, 0, 0, 9, 1, 1, 1, 1, 2, 2, 2, 2, 0, 0, 0, 2, 9, 9, 9, 9], 0 + 12 * 1 + 8,
          false⟩) :=
  ⟨by decide, by decide, by decide, by decide,
    (C10_search_stride12 [0, 0, 0, 9, 1, 1, 1, 1, 2, 2, 2, 2, 0, 0, 0, 2, 9, 9, 9, 9]).1
      1 0 3 (by decide) (by decide) (by decide) (by decide)⟩

/-- Outcome of the Path-A atom walk of `main` (djifix.c:170-244):
proceed with `doRepairType1` using the recorded `ftypSize` (`go`), fall
back to the Path-B marker search (`fb2`), or abort (`fatal`). -/
inductive T1Out where
  | go : Nat → ByteSrc → T1Out
  | fb2 : ByteSrc → T1Out
  | fatal : T1Out
deriving DecidableEq, Repr

/-- Embeds the Path-A atom walk of `main` (djifix.c:170-244): optional
`moov` (skip its payload on match, rewind 8 bytes on mismatch — a
failed rewind is fatal), optional `free` likewise, then `mdat`.  When
`mdat` matches, run the nested-`ftyp` detection; when it does not, fall
back to Path B with NO rewind (the probe's reads stay consumed,
djifix.c:239-243).  When no nested `ftyp` is found inside `mdat`,
rewind 8 and fall back to Path B (djifix.c:229-237). -/
def runType1 (fuel : Nat) (st : ByteSrc) : Option T1Out :=
  let afterMoov : Option ByteSrc :=
    match checkAtom st fourccMoov with
    | (some n, st1) => some (skipForward st1 n)
    | (none, st1) =>
      match fseekCur st1 (-8) with
      | none => none
      | some st2 => some st2
  match afterMoov with
  | none => some .fatal
  | some stA =>
    let afterFree : Option ByteSrc :=
      match checkAtom stA fourccFree with
      | (some n, st1) => some (skipForward st1 n)
      | (none, st1) =>
        match fseekCur st1 (-8) with
        | none => none
        | some st2 => some st2
    match afterFree with
    | none => some .fatal
    | some stB =>
      match checkAtom stB fourccMdat with
      | (none, st1) => some (.fb2 st1)
      | (some _, st2) =>
        match runNestedFtyp fuel st2 with
        | none => none
        | some (.found sz st3) => some (.go sz st3)
        | some (.noFtyp st3) =>
          match fseekCur st3 (-8) with
          | none => some .fatal
          | some st4 => some (.fb2 st4)

/-- A finished run of the repair program's core: fatal, or the byte
sequence written to the output file. -/
inductive RepairOut where
  | fatal : RepairOut
  | output : List Nat → RepairOut
deriving DecidableEq, Repr

/-- Embeds the whole core flow of `main` (djifix.c:104-305): classify,
then either run the Path-A walk and `doRepairType1`, or fall back to
the `0x00000002` search and `doRepairType2` (with the caller-supplied
format code), or run `doRepairType2` directly on a Path-B
classification. -/
def repairMain (data : List Nat) (formatCode fuel : Nat) : Option RepairOut :=
  match classify data with
  | none => none
  | some .fatal => some .fatal
  | some (.repair2 second st) => (doRepairType2 st formatCode second fuel).map .output
  | some (.repair1 st) =>
    match runType1 fuel st with
    | none => none
    | some .fatal => some .fatal
    | some (.go sz st2) => some (.output (doRepairType1 st2 sz))
    | some (.fb2 st2) =>
      match search02 fuel st2 with
      | none => none
      | some .noMarker => some .fatal
      | some (.found n4 st3) => (doRepairType2 st3 formatCode n4 fuel).map .output

/-- C9 counterexample: for the input of the claim — 8 zero bytes, then
the wrapper tag directly, then a valid size/tag pair — the classifier
does NOT classify Path A: the word preceding the tag is the zero filler
itself, so the `ftyp` branch sees size 0 < 8 and the run is fatal,
producing no output at all. -/
theorem C9_counterexample :
    classify [0, 0, 0, 0, 0, 0, 0, 0, 102, 116, 121, 112, 0, 0, 0, 8] = some .fatal ∧
    repairMain [0, 0, 0, 0, 0, 0, 0, 0, 102, 116, 121, 112, 0, 0, 0, 8] 56 30 =
      some .fatal := by
  decide

/-- Concrete input for the amended C9: 8 zero bytes of filler, then a
plausible size word (12), then the wrapper tag with its atom body, then
`moov`, `mdat`, and a nested `ftyp` of size 16 with payload. -/
def pathAInput : List Nat :=
  [0, 0, 0, 0, 0, 0, 0, 0,
   0, 0, 0, 12, 102, 116, 121, 112, 1, 2, 3, 4,
   0, 0, 0, 8, 109, 111, 111, 118,
   0, 0, 0, 30, 109, 100, 97, 116,
   0, 0, 0, 16, 102, 116, 121, 112,
   5, 6, 7, 8, 9, 10]

/-- C9 (amended): for an input consisting of 8 zero bytes, then a
plausible size word, then the magic wrapper tag, then a valid nested
size/tag chain, the classifier skips the zero filler, classifies the
input as Repair Path A, and the resulting output begins with the
recomputed 8-byte header: the recovered size (16) big-endian, then the
wrapper tag, then the pass-through payload. -/
theorem C9_zero_filler_pathA :
    classify pathAInput = some (.repair1 ⟨pathAInput, 20, false⟩) ∧
    repairMain pathAInput 56 60 =
      some (.output ([0, 0, 0, 16] ++ [102, 116, 121, 112] ++ [5, 6, 7, 8, 9, 10])) := by
  have h1 : classify pathAInput = some (.repair1 ⟨pathAInput, 20, false⟩) := by decide
  have h2 : runType1 60 ⟨pathAInput, 20, false⟩ = some (.go 16 ⟨pathAInput, 44, false⟩) := by
    decide
  have h3 : doRepairType1 ⟨pathAInput, 44, false⟩ 16 =
      [0, 0, 0, 16] ++ [102, 116, 121, 112] ++ [5, 6, 7, 8, 9, 10] := by
    rw [doRepairType1, copyAll_eq]
    decide
  refine ⟨h1, ?_⟩
  rw [repairMain, h1]
  dsimp only
  rw [h2]
  dsimp only
  rw [h3]
